import Mathlib

/-!
Shallow embedding of the PPPoE server core (packet codec, discovery engine,
session table) and proofs about it.

Bytes are modelled as natural numbers (each `< 256` on the wire); 16-bit
fields as naturals `< 65536`.  Fallible Rust functions return `Option`;
paths that panic in Rust (`assert!`, `unwrap`, `todo!`) are modelled by an
explicit outcome constructor.
-/

/-- Big-endian encoding of a 16-bit value, as in `u16::to_be_bytes`. -/
def toBe16 (n : ℕ) : List ℕ := [n / 256 % 256, n % 256]

/-- Big-endian decoding of two bytes, as in `u16::from_be_bytes`. -/
def ofBe16 (hi lo : ℕ) : ℕ := hi * 256 + lo

/-- A PPPoE discovery tag: `(tag_type, tag_value)`, from
`Vec<(u16, Cow<[u8]>)>` in `discovery.rs`. -/
abbrev Tag := ℕ × List ℕ

/-- Tag-sequence decoder, from `<Vec<(u16, Cow<[u8]>)> as Payload>::deserialize`
in `discovery.rs`: while the stream is non-empty, require a 4-byte tag header,
read the big-endian type and length, require `length` value bytes, and
continue after them. -/
def deserializeTagsGo : ℕ → List ℕ → Option (List Tag)
  | _, [] => some []
  | fuel + 1, a :: b :: c :: d :: rest =>
    if ofBe16 c d ≤ rest.length then
      match deserializeTagsGo fuel (rest.drop (ofBe16 c d)) with
      | some tags => some ((ofBe16 a b, rest.take (ofBe16 c d)) :: tags)
      | none => none
    else none
  | _, _ => none

/-- The loop of the tag-sequence decoder, entered with fuel equal to the
input length; each iteration consumes at least four bytes and spends one
unit of fuel, so the fuel never runs out (the decoder itself is
`deserializeTagsGo` above, the fuel is only there to make the recursion
structural). -/
def deserializeTags (data : List ℕ) : Option (List Tag) :=
  deserializeTagsGo data.length data

/-- Tag-sequence encoder, from `<Vec<(u16, Cow<[u8]>)> as Payload>::serialize`:
each tag is emitted as big-endian type, big-endian value length, value bytes,
in caller-supplied order.  (The `u16` conversion of the value length panics
in Rust when the value exceeds 65535 bytes; that case is excluded at the
call site in `EthernetPayload.serialize` below.) -/
def serializeTags (tags : List Tag) : List ℕ :=
  tags.flatMap fun tv => toBe16 tv.1 ++ toBe16 tv.2.length ++ tv.2

/-- Parsed PPPoE header plus tag payload, from `EthernetPayload<T>` in
`payload.rs` instantiated at the discovery payload `Vec<(u16, Cow<[u8]>)>`. -/
structure EthernetPayload where
  code : ℕ
  session_id : ℕ
  payload : List Tag
deriving DecidableEq, Repr

/-- `EthernetPayload::deserialize` from `payload.rs` (tag-sequence instance):
require a 6-byte header; byte 0's low nibble (`& 0xf`) is the version and its
high nibble (`>> 4`) the type, both must be 1; read code, big-endian session
id and length; take exactly `length` payload bytes (`data[6..].get(..length)`,
which fails when fewer than `length` bytes remain and ignores any bytes after
them); then decode the tag sequence. -/
def EthernetPayload.deserialize (data : List ℕ) : Option EthernetPayload :=
  match data with
  | b0 :: code :: s1 :: s2 :: l1 :: l2 :: rest =>
    if b0 % 16 = 1 ∧ b0 / 16 = 1 then
      if ofBe16 l1 l2 ≤ rest.length then
        match deserializeTags (rest.take (ofBe16 l1 l2)) with
        | some tags => some ⟨code, ofBe16 s1 s2, tags⟩
        | none => none
      else none
    else none
  | _ => none

/-- `EthernetPayload::serialize` from `payload.rs` (tag-sequence instance):
write `0x11`, the code, the big-endian session id, a two-byte placeholder,
then the payload encoding; `assert!(buf.len() <= 1500)`; backpatch the length
field with the payload byte count.  `none` models a panic: either the
assertion failing (total over 1500 bytes) or the `u16` conversion of a tag
value length failing (value over 65535 bytes). -/
def EthernetPayload.serialize (p : EthernetPayload) : Option (List ℕ) :=
  if p.payload.all fun tv => tv.2.length ≤ 65535 then
    let body := serializeTags p.payload
    if 6 + body.length ≤ 1500 then
      some ([0x11, p.code] ++ toBe16 p.session_id ++ toBe16 body.length ++ body)
    else none
  else none

/-- The session table, from `Sessions` in `session/list.rs`: `list` holds the
keys of the `HashMap` of active session ids (most recently inserted first;
the map values are per-session channel senders, irrelevant to id management),
`free` is the `Vec` of pooled ids with its top — the element `Vec::pop` would
remove next — first. -/
structure Sessions where
  list : List ℕ
  free : List ℕ
deriving DecidableEq, Repr

/-- `Default::default()` for `Sessions`: both collections empty. -/
def Sessions.default : Sessions := ⟨[], []⟩

/-- Result of `Sessions::spawn`: a fresh id with the updated table,
`exhausted` when the Rust function returns `None` (the id space is used up),
or `panic` when `assert!(list.insert(id, tx).is_none())` fails. -/
inductive SpawnOut where
  | ok (id : ℕ) (s : Sessions)
  | exhausted
  | panic
deriving DecidableEq, Repr

/-- `Sessions::spawn` from `session/list.rs`: pop an id from the free pool if
possible, otherwise use `list.len() + 1` — failing if that does not fit a
`NonZeroU16` (that is, exceeds 65535) — then insert it into the active map,
asserting that it was not already present. -/
def Sessions.spawn (s : Sessions) : SpawnOut :=
  match s.free with
  | id :: rest =>
    if id ∈ s.list then .panic else .ok id ⟨id :: s.list, rest⟩
  | [] =>
    if s.list.length + 1 ≤ 65535 then
      if s.list.length + 1 ∈ s.list then .panic
      else .ok (s.list.length + 1) ⟨(s.list.length + 1) :: s.list, []⟩
    else .exhausted

/-- Result of a table operation that can only panic or yield a new table. -/
inductive ExecOut where
  | ok (s : Sessions)
  | panic
deriving DecidableEq, Repr

/-- `Sessions::free` from `session/list.rs` (named `release` here because the
structure field already uses the Rust name `free`): push the id onto the free
pool **unless it equals the size of the active map before removal**
(`Into::<usize>::into(id.get()) != list.len()`), then remove it from the
active map, panicking (`unwrap`) if it was not present. -/
def Sessions.release (s : Sessions) (id : ℕ) : ExecOut :=
  if id ∈ s.list then
    .ok ⟨s.list.erase id, if id ≠ s.list.length then id :: s.free else s.free⟩
  else .panic

/-- A session-table operation: an `allocate` (`Sessions::spawn`) or a
`release` (`Sessions::free`) of a given id. -/
inductive Op where
  | spawn
  | free (id : ℕ)
deriving DecidableEq, Repr

/-- One table operation.  A `spawn` that returns `None` in Rust leaves the
table unchanged (the caller simply gets no session); panics propagate. -/
def Sessions.step (s : Sessions) : Op → ExecOut
  | .spawn =>
    match s.spawn with
    | .ok _ s' => .ok s'
    | .exhausted => .ok s
    | .panic => .panic
  | .free id => s.release id

/-- Run a finite sequence of table operations from a given table state. -/
def Sessions.exec (s : Sessions) : List Op → ExecOut
  | [] => .ok s
  | op :: rest =>
    match s.step op with
    | .ok s' => Sessions.exec s' rest
    | .panic => .panic

/-- UTF-8 continuation byte (`0x80..=0xBF`). -/
def isCont (b : ℕ) : Bool := 0x80 ≤ b && b ≤ 0xBF

/-- UTF-8 validity of a byte sequence, the success condition of
`std::str::from_utf8` used by the discovery engine on Service-Name tag
values: ASCII is one byte; `0xC2..=0xDF` lead a 2-byte sequence;
`0xE0..=0xEF` lead a 3-byte sequence (first continuation restricted to
`0xA0..=0xBF` after `0xE0` and to `0x80..=0x9F` after `0xED`, excluding
overlong forms and surrogates); `0xF0..=0xF4` lead a 4-byte sequence (first
continuation restricted to `0x90..=0xBF` after `0xF0` and to `0x80..=0x8F`
after `0xF4`, excluding overlong forms and values past U+10FFFF); bare
continuation bytes, `0xC0`/`0xC1` and `0xF5..=0xFF` are invalid. -/
def isUtf8 : List ℕ → Bool
  | [] => true
  | b :: rest =>
    if b ≤ 0x7F then isUtf8 rest
    else if b < 0xC2 then false
    else if b ≤ 0xDF then
      match rest with
      | c1 :: r => isCont c1 && isUtf8 r
      | [] => false
    else if b ≤ 0xEF then
      match rest with
      | c1 :: c2 :: r =>
        (if b = 0xE0 then 0xA0 ≤ c1 && c1 ≤ 0xBF
         else if b = 0xED then 0x80 ≤ c1 && c1 ≤ 0x9F
         else isCont c1) && isCont c2 && isUtf8 r
      | _ => false
    else if b ≤ 0xF4 then
      match rest with
      | c1 :: c2 :: c3 :: r =>
        (if b = 0xF0 then 0x90 ≤ c1 && c1 ≤ 0xBF
         else if b = 0xF4 then 0x80 ≤ c1 && c1 ≤ 0x8F
         else isCont c1) && isCont c2 && isCont c3 && isUtf8 r
      | _ => false
    else false

/-- The tag scan shared by `DiscoveryServer::parse_padi` and
`DiscoveryServer::parse_padr` in `discovery.rs`: walk the tags in order;
a Service-Name tag (`0x0101`) is rejected (`none`) when one was already seen
or when its bytes are not valid UTF-8, otherwise recorded; a Host-Uniq tag
(`0x0103`) overwrites the recorded Host-Uniq value; other tags are skipped.
Returns the recorded Service-Name and Host-Uniq values. -/
def scanTags : List Tag → Option (List ℕ) → Option (List ℕ) →
    Option (Option (List ℕ) × Option (List ℕ))
  | [], sn, hu => some (sn, hu)
  | (t, v) :: rest, sn, hu =>
    if t = 0x0101 then
      match sn with
      | some _ => none
      | none => if isUtf8 v then scanTags rest (some v) hu else none
    else if t = 0x0103 then scanTags rest sn (some v)
    else scanTags rest sn hu

/-- The fixed AC-Name string `"OBHQ Jailbreak 11.00"` advertised in PADO
replies (`discovery.rs`), as its UTF-8 bytes. -/
def acName : List ℕ :=
  [79, 66, 72, 81, 32, 74, 97, 105, 108, 98, 114, 101, 97, 107, 32,
   49, 49, 46, 48, 48]

/-- Outcome of `DiscoveryServer::parse_padi`: either the frame is logged and
ignored (the function returns without replying), or a PADO reply is built and
sent to the peer. -/
inductive PadiOut where
  | reject
  | reply (pado : EthernetPayload)
deriving DecidableEq, Repr

/-- `DiscoveryServer::parse_padi` from `discovery.rs`, with transport and
logging dropped: reject when the session id is non-zero; scan the tags;
reject when the scan fails or records no Service-Name; otherwise build a PADO
(code `0x07`, session id 0) whose tags are the AC-Name tag, the Service-Name
echo, and — when a Host-Uniq value was recorded — a trailing Host-Uniq
echo. -/
def DiscoveryServer.parse_padi (data : EthernetPayload) : PadiOut :=
  if data.session_id ≠ 0x0000 then .reject
  else
    match scanTags data.payload none none with
    | none => .reject
    | some (none, _) => .reject
    | some (some sn, hu) =>
      .reply ⟨0x07, 0x0000,
        [(0x0102, acName), (0x0101, sn)] ++
          (match hu with | some h => [(0x0103, h)] | none => [])⟩

/-- Outcome of `DiscoveryServer::parse_padr`: the frame is logged and
ignored; or the engine panics inside `Sessions::spawn`'s assertion; or it
reaches the explicitly unimplemented `todo!()` arm because `spawn` returned
`None`; or a session is allocated and a PADS reply is built, yielding the
updated session table. -/
inductive PadrOut where
  | reject
  | panic
  | todo
  | reply (pads : EthernetPayload) (sessions : Sessions)
deriving DecidableEq, Repr

/-- `DiscoveryServer::parse_padr` from `discovery.rs`, with transport and
logging dropped: the same validation as `parse_padi`; on success request a
session id from the table — `None` lands on `todo!()`, which panics — and
build a PADS (code `0x65`) carrying the allocated id, the Service-Name echo
and, when recorded, a trailing Host-Uniq echo. -/
def DiscoveryServer.parse_padr (data : EthernetPayload) (sessions : Sessions) :
    PadrOut :=
  if data.session_id ≠ 0x0000 then .reject
  else
    match scanTags data.payload none none with
    | none => .reject
    | some (none, _) => .reject
    | some (some sn, hu) =>
      match sessions.spawn with
      | .panic => .panic
      | .exhausted => .todo
      | .ok id s' =>
        .reply
          ⟨0x65, id,
            [(0x0101, sn)] ++
              (match hu with | some h => [(0x0103, h)] | none => [])⟩
          s'

/-- The UTF-8 bytes of the service name `"svc"` used in concrete frames. -/
def svcName : List ℕ := [115, 118, 99]

/-- Number of Service-Name (`0x0101`) tags in a tag sequence. -/
def countServiceName (ts : List Tag) : ℕ :=
  (ts.filter fun tv => decide (tv.1 = 0x0101)).length

/-- The value of the last Host-Uniq (`0x0103`) tag of a tag sequence, if
any: the last occurrence dominates every earlier one. -/
def lastHostUniq : List Tag → Option (List ℕ)
  | [] => none
  | (t, v) :: rest =>
    match lastHostUniq rest with
    | some h => some h
    | none => if t = 0x0103 then some v else none

/-- The ids `n, n-1, ..., 1`. -/
def idsFrom : ℕ → List ℕ
  | 0 => []
  | n + 1 => (n + 1) :: idsFrom n

/-- A session table with all 65535 ids (`1..=65535`) active and an empty
free pool. -/
def exhaustedSessions : Sessions :=
  ⟨idsFrom 65535, []⟩

/-! ## Claim theorems -/

/-- C1 (code bug): the spec claims `spawn` never hands out (nor inserts) an
id that is already active, and the code itself asserts this
(`assert!(list.insert(id, tx).is_none())`), but the assertion fails on a
reachable operation sequence: allocate ids 1, 2, 3, release 1 (pooled),
release 2 (discarded, because it equals the then-current active count 2),
re-allocate (pops 1), allocate again — the free pool is empty and
`list.len() + 1 = 3`, yet id 3 is still active, so the insert assertion
panics.  The first conjunct shows ids 1, 2, 3 are the ones allocated by the
prefix. -/
theorem c1_spawn_inserts_active_id :
    Sessions.exec Sessions.default [.spawn, .spawn, .spawn] = .ok ⟨[3, 2, 1], []⟩ ∧
    Sessions.exec Sessions.default
        [.spawn, .spawn, .spawn, .free 1, .free 2, .spawn, .spawn] = .panic := by
  decide

/-- C2 (code bug): the spec claims an id is pooled on release exactly when a
higher id is still active (releasing the highest active id discards it).
The code instead pools the id iff it differs from the pre-removal active
count.  After allocating 1, 2, 3 and releasing 1 the active set is `{2, 3}`
with pool `[1]` (first conjunct); releasing the non-highest id 2 (3 is still
active) then *discards* it — the pool stays `[1]` (second conjunct).
Dually, after allocating 1, 2, 3 and releasing 2, releasing the highest
active id 3 *pools* it even though no higher id is active (third conjunct;
the free pool is modelled top-first, so `[3, 2]` is a pool holding 2 with 3
on top). -/
theorem c2_free_pool_criterion_mismatch :
    Sessions.exec Sessions.default [.spawn, .spawn, .spawn, .free 1] =
        .ok ⟨[3, 2], [1]⟩ ∧
    Sessions.exec Sessions.default [.spawn, .spawn, .spawn, .free 1, .free 2] =
        .ok ⟨[3], [1]⟩ ∧
    Sessions.exec Sessions.default [.spawn, .spawn, .spawn, .free 2, .free 3] =
        .ok ⟨[1], [3, 2]⟩ := by
  decide

/-- Any two sufficient fuels give the tag decoder the same result. -/
lemma deserializeTagsGo_congr :
    ∀ (f1 f2 : ℕ) (data : List ℕ), data.length ≤ f1 → data.length ≤ f2 →
      deserializeTagsGo f1 data = deserializeTagsGo f2 data := by
  intro f1
  induction f1 with
  | zero =>
    intro f2 data h1 h2
    have : data = [] := List.eq_nil_of_length_eq_zero (Nat.le_zero.mp h1)
    subst this
    cases f2 <;> rfl
  | succ f1 ih =>
    intro f2 data h1 h2
    rcases data with _ | ⟨a, _ | ⟨b, _ | ⟨c, _ | ⟨d, rest⟩⟩⟩⟩
    · cases f2 <;> rfl
    · cases f2 <;> rfl
    · cases f2 <;> rfl
    · cases f2 <;> rfl
    · simp only [List.length_cons] at h1 h2
      rcases f2 with _ | f2
      · omega
      · simp only [deserializeTagsGo]
        have hd : (rest.drop (ofBe16 c d)).length ≤ f1 := by
          simp only [List.length_drop]; omega
        have hd2 : (rest.drop (ofBe16 c d)).length ≤ f2 := by
          simp only [List.length_drop]; omega
        rw [ih f2 _ hd hd2]

/-- Any sufficient fuel computes `deserializeTags`. -/
lemma deserializeTagsGo_eq (fuel : ℕ) (data : List ℕ) (h : data.length ≤ fuel) :
    deserializeTagsGo fuel data = deserializeTags data :=
  deserializeTagsGo_congr fuel data.length data h le_rfl

/-- One-step unfolding of the tag decoder on a 4-byte tag header. -/
lemma deserializeTags_cons (a b c d : ℕ) (rest : List ℕ) :
    deserializeTags (a :: b :: c :: d :: rest) =
      if ofBe16 c d ≤ rest.length then
        match deserializeTags (rest.drop (ofBe16 c d)) with
        | some tags => some ((ofBe16 a b, rest.take (ofBe16 c d)) :: tags)
        | none => none
      else none := by
  show deserializeTagsGo (a :: b :: c :: d :: rest).length _ = _
  simp only [List.length_cons, deserializeTagsGo]
  rw [deserializeTagsGo_eq]
  simp only [List.length_drop]
  omega

/-- Reassembling the two bytes of a 16-bit big-endian value. -/
lemma ofBe16_split (n : ℕ) (h : n < 65536) :
    ofBe16 (n / 256 % 256) (n % 256) = n := by
  simp only [ofBe16]
  omega

/-- One-step unfolding of the tag encoder. -/
lemma serializeTags_cons (t : ℕ) (v : List ℕ) (rest : List Tag) :
    serializeTags ((t, v) :: rest) =
      t / 256 % 256 :: t % 256 :: v.length / 256 % 256 :: v.length % 256 ::
        (v ++ serializeTags rest) := by
  simp [serializeTags, toBe16]

/-- The tag codec round-trips any tag list whose types and value lengths fit
16 bits. -/
lemma deserializeTags_serializeTags (ts : List Tag)
    (h : ∀ tv ∈ ts, tv.1 < 65536 ∧ tv.2.length < 65536) :
    deserializeTags (serializeTags ts) = some ts := by
  induction ts with
  | nil => rfl
  | cons tv rest ih =>
    obtain ⟨t, v⟩ := tv
    have ht := (h (t, v) (List.mem_cons_self _ _)).1
    have hv := (h (t, v) (List.mem_cons_self _ _)).2
    rw [serializeTags_cons, deserializeTags_cons, ofBe16_split v.length hv,
      ofBe16_split t ht]
    rw [if_pos (by simp)]
    rw [List.drop_left' rfl, List.take_left' rfl]
    rw [ih fun tv htv => h tv (List.mem_cons_of_mem _ htv)]

/-- C4 (confirmed): codec round-trip — for every in-memory `EthernetPayload`
whose session id and tag types fit 16 bits and whose serialization succeeds
(which per C6 is exactly the payloads of total encoded size at most 1500
bytes, and forces every tag value length to fit 16 bits), deserializing the
serialized bytes yields back the same code, session id and tag sequence in
order. -/
theorem c4_serialize_deserialize_roundtrip (p : EthernetPayload) (out : List ℕ)
    (hsid : p.session_id < 65536)
    (hty : ∀ tv ∈ p.payload, tv.1 < 65536)
    (hser : p.serialize = some out) :
    EthernetPayload.deserialize out = some p := by
  obtain ⟨code, sid, tags⟩ := p
  simp only at hsid hty
  unfold EthernetPayload.serialize at hser
  simp only at hser
  by_cases hall : tags.all (fun tv => tv.2.length ≤ 65535) = true
  · rw [if_pos hall] at hser
    by_cases hlen : 6 + (serializeTags tags).length ≤ 1500
    · rw [if_pos hlen] at hser
      obtain rfl := (Option.some.inj hser).symm
      have hbl : (serializeTags tags).length < 65536 := by omega
      simp only [toBe16, List.cons_append, List.nil_append,
        EthernetPayload.deserialize]
      rw [if_pos (by decide), ofBe16_split _ hbl, if_pos le_rfl,
        List.take_length,
        deserializeTags_serializeTags tags (fun tv htv =>
          ⟨hty tv htv, by
            have := List.all_eq_true.mp hall tv htv
            simp only [decide_eq_true_eq] at this
            omega⟩),
        ofBe16_split _ hsid]
    · rw [if_neg hlen] at hser; exact absurd hser (by simp)
  · rw [if_neg hall] at hser; exact absurd hser (by simp)

/-- Witness for C4 at the frame `(code 0x09, session 0, one Service-Name
tag "svc")`. -/
theorem c4_roundtrip_witness :
    EthernetPayload.deserialize
        [0x11, 0x09, 0, 0, 0, 7, 1, 1, 0, 3, 115, 118, 99] =
      some ⟨0x09, 0, [(0x0101, svcName)]⟩ :=
  c4_serialize_deserialize_roundtrip ⟨0x09, 0, [(0x0101, svcName)]⟩ _
    (by decide) (by decide) (by decide)

/-- C5 (confirmed): deserialize rejection conditions — `deserialize` returns
`none` on input shorter than 6 bytes; when byte 0's two nibbles are not both
1; when the declared length field exceeds the bytes remaining after the
header (the frame is never partially accepted); and the tag decoder — hence
`deserialize`, by the last conjunct — fails on a dangling tag header shorter
than 4 bytes or on a tag whose declared length exceeds the remaining tag
stream. -/
theorem c5_deserialize_rejection_conditions :
    (∀ data : List ℕ, data.length < 6 → EthernetPayload.deserialize data = none) ∧
    (∀ (b0 code s1 s2 l1 l2 : ℕ) (rest : List ℕ), b0 < 256 →
      ¬(b0 % 16 = 1 ∧ b0 / 16 = 1) →
      EthernetPayload.deserialize (b0 :: code :: s1 :: s2 :: l1 :: l2 :: rest) = none) ∧
    (∀ (b0 code s1 s2 l1 l2 : ℕ) (rest : List ℕ), rest.length < ofBe16 l1 l2 →
      EthernetPayload.deserialize (b0 :: code :: s1 :: s2 :: l1 :: l2 :: rest) = none) ∧
    (∀ data : List ℕ, data ≠ [] → data.length < 4 → deserializeTags data = none) ∧
    (∀ (a b c d : ℕ) (rest : List ℕ), rest.length < ofBe16 c d →
      deserializeTags (a :: b :: c :: d :: rest) = none) ∧
    (∀ (b0 code s1 s2 l1 l2 : ℕ) (rest : List ℕ),
      deserializeTags (rest.take (ofBe16 l1 l2)) = none →
      EthernetPayload.deserialize (b0 :: code :: s1 :: s2 :: l1 :: l2 :: rest) = none) := by
  refine ⟨?_, ?_, ?_, ?_, ?_, ?_⟩
  · intro data h
    rcases data with _ | ⟨a, _ | ⟨b, _ | ⟨c, _ | ⟨d, _ | ⟨e, _ | ⟨f, rest⟩⟩⟩⟩⟩⟩ <;>
      first
        | rfl
        | (simp only [List.length_cons] at h; omega)
  · intro b0 code s1 s2 l1 l2 rest _ hnib
    simp only [EthernetPayload.deserialize, if_neg hnib]
  · intro b0 code s1 s2 l1 l2 rest h
    simp only [EthernetPayload.deserialize]
    rw [if_neg (by omega : ¬ ofBe16 l1 l2 ≤ rest.length)]
    split <;> rfl
  · intro data hne h
    rcases data with _ | ⟨a, _ | ⟨b, _ | ⟨c, _ | ⟨d, rest⟩⟩⟩⟩ <;>
      first
        | rfl
        | (exact absurd rfl hne)
        | (simp only [List.length_cons] at h; omega)
  · intro a b c d rest h
    rw [deserializeTags_cons, if_neg (by omega)]
  · intro b0 code s1 s2 l1 l2 rest h
    simp only [EthernetPayload.deserialize, h]
    split <;> [skip; rfl]
    split <;> rfl

/-- Witness for C5: one concrete rejected input per conjunct — an empty
frame, a bad version/type byte `0x21`, a length field overrunning the
buffer, a 1-byte dangling tag header, a tag claiming 9 value bytes with none
remaining, and a frame whose single payload byte is a truncated tag. -/
theorem c5_rejection_witness :
    EthernetPayload.deserialize [] = none ∧
    EthernetPayload.deserialize [0x21, 9, 0, 0, 0, 0] = none ∧
    EthernetPayload.deserialize [0x11, 9, 0, 0, 0, 5] = none ∧
    deserializeTags [1] = none ∧
    deserializeTags [1, 1, 0, 9] = none ∧
    EthernetPayload.deserialize [0x11, 9, 0, 0, 0, 1, 5] = none :=
  ⟨c5_deserialize_rejection_conditions.1 [] (by decide),
   c5_deserialize_rejection_conditions.2.1 0x21 9 0 0 0 0 [] (by decide) (by decide),
   c5_deserialize_rejection_conditions.2.2.1 0x11 9 0 0 0 5 [] (by decide),
   c5_deserialize_rejection_conditions.2.2.2.1 [1] (by decide) (by decide),
   c5_deserialize_rejection_conditions.2.2.2.2.1 1 1 0 9 [] (by decide),
   c5_deserialize_rejection_conditions.2.2.2.2.2 0x11 9 0 0 0 1 [5] (by decide)⟩

/-- A tag's value is never longer than the whole tag-sequence encoding. -/
lemma length_le_serializeTags (ts : List Tag) (tv : Tag) (h : tv ∈ ts) :
    tv.2.length ≤ (serializeTags ts).length := by
  induction ts with
  | nil => cases h
  | cons hd rest ih =>
    obtain ⟨t, v⟩ := hd
    rw [serializeTags_cons]
    rcases List.mem_cons.mp h with h | h
    · subst h
      simp only [List.length_cons, List.length_append]
      omega
    · have := ih h
      simp only [List.length_cons, List.length_append]
      omega

/-- C6 (confirmed): serialize totality and length exactness — `serialize`
panics (modelled `none`) exactly when the encoded total (6-byte header plus
payload encoding) exceeds 1500 bytes; on success the output is the byte
`0x11`, the code, the big-endian session id, and a backpatched length field
equal to the payload byte count, followed by the payload encoding. -/
theorem c6_serialize_totality_length :
    (∀ p : EthernetPayload,
      p.serialize = none ↔ 1500 < 6 + (serializeTags p.payload).length) ∧
    (∀ (p : EthernetPayload) (out : List ℕ), p.serialize = some out →
      out = 0x11 :: p.code :: toBe16 p.session_id ++
        toBe16 (serializeTags p.payload).length ++ serializeTags p.payload) := by
  constructor
  · intro p
    unfold EthernetPayload.serialize
    simp only
    by_cases hall : p.payload.all (fun tv => tv.2.length ≤ 65535) = true
    · rw [if_pos hall]
      by_cases hlen : 6 + (serializeTags p.payload).length ≤ 1500
      · rw [if_pos hlen]
        simp only [reduceCtorEq, false_iff]
        omega
      · rw [if_neg hlen]
        simp only [true_iff]
        omega
    · rw [if_neg hall]
      simp only [true_iff]
      simp only [List.all_eq_true, decide_eq_true_eq, not_forall] at hall
      obtain ⟨tv, htv, hlen⟩ := hall
      have := length_le_serializeTags p.payload tv htv
      omega
  · intro p out hser
    unfold EthernetPayload.serialize at hser
    simp only at hser
    by_cases hall : p.payload.all (fun tv => tv.2.length ≤ 65535) = true
    · rw [if_pos hall] at hser
      by_cases hlen : 6 + (serializeTags p.payload).length ≤ 1500
      · rw [if_pos hlen] at hser
        obtain rfl := (Option.some.inj hser).symm
        simp
      · rw [if_neg hlen] at hser; exact absurd hser (by simp)
    · rw [if_neg hall] at hser; exact absurd hser (by simp)

/-- Witness for C6: a payload with a 1495-byte tag value (total 1505 bytes)
panics, and the empty-payload frame serializes to exactly the 6-byte header
with length field 0. -/
theorem c6_serialize_witness :
    (EthernetPayload.serialize ⟨0, 0, [(0, List.replicate 1495 0)]⟩ = none) ∧
    ([0x11, 9, 0, 0, 0, 0] : List ℕ) = 0x11 :: 9 :: toBe16 0 ++
      toBe16 (serializeTags []).length ++ serializeTags [] :=
  ⟨(c6_serialize_totality_length.1 _).mpr (by
      simp only [serializeTags_cons, List.length_cons, List.length_append,
        List.length_replicate]
      norm_num [serializeTags]),
   c6_serialize_totality_length.2 ⟨9, 0, []⟩ _ (by decide)⟩

/-- C10 (confirmed): trailing-byte tolerance — when the header checks pass
and the declared length is strictly smaller than the bytes remaining after
the 6-byte header, `deserialize` still succeeds (provided the first `length`
payload bytes decode as tags), consumes exactly `length` payload bytes, and
returns the same result as on the frame with the trailing bytes removed. -/
theorem c10_trailing_bytes_ignored (code s1 s2 l1 l2 : ℕ) (rest : List ℕ)
    (ts : List Tag) (hlt : ofBe16 l1 l2 < rest.length)
    (hts : deserializeTags (rest.take (ofBe16 l1 l2)) = some ts) :
    EthernetPayload.deserialize (0x11 :: code :: s1 :: s2 :: l1 :: l2 :: rest) =
        some ⟨code, ofBe16 s1 s2, ts⟩ ∧
    EthernetPayload.deserialize
        (0x11 :: code :: s1 :: s2 :: l1 :: l2 :: rest.take (ofBe16 l1 l2)) =
      some ⟨code, ofBe16 s1 s2, ts⟩ := by
  constructor
  · simp only [EthernetPayload.deserialize]
    rw [if_pos (by decide), if_pos (Nat.le_of_lt hlt), hts]
  · simp only [EthernetPayload.deserialize]
    have hl : (rest.take (ofBe16 l1 l2)).length = ofBe16 l1 l2 := by
      rw [List.length_take]
      omega
    rw [if_pos (by decide), if_pos (le_of_eq hl.symm), List.take_take,
      min_self, hts]

/-- Witness for C10: a zero-length payload followed by two padding bytes
parses identically with and without the padding. -/
theorem c10_trailing_witness :
    EthernetPayload.deserialize [0x11, 0x09, 0, 0, 0, 0, 0, 0] =
        some ⟨0x09, 0, []⟩ ∧
    EthernetPayload.deserialize [0x11, 0x09, 0, 0, 0, 0] =
        some ⟨0x09, 0, []⟩ :=
  c10_trailing_bytes_ignored 0x09 0 0 0 0 [0, 0] [] (by decide) (by decide)

/-- Once a Service-Name is recorded, any further Service-Name tag makes the
scan fail. -/
lemma scanTags_none_of_sn_some (ts : List Tag) (s0 : List ℕ) (hu : Option (List ℕ))
    (h : ∃ v, (0x0101, v) ∈ ts) : scanTags ts (some s0) hu = none := by
  induction ts generalizing hu with
  | nil => obtain ⟨v, hv⟩ := h; cases hv
  | cons hd rest ih =>
    obtain ⟨t, w⟩ := hd
    by_cases ht : t = 0x0101
    · subst ht
      simp [scanTags]
    · obtain ⟨v, hv⟩ := h
      rcases List.mem_cons.mp hv with hv | hv
      · cases hv; exact absurd rfl ht
      · simp only [scanTags, if_neg ht]
        split <;> exact ih _ ⟨v, hv⟩

/-- A positive Service-Name count exhibits a Service-Name tag. -/
lemma exists_sn_of_count_pos (ts : List Tag) (h : 1 ≤ countServiceName ts) :
    ∃ v, (0x0101, v) ∈ ts := by
  induction ts with
  | nil => simp [countServiceName] at h
  | cons hd rest ih =>
    obtain ⟨t, v⟩ := hd
    by_cases ht : t = 0x0101
    · subst ht; exact ⟨v, List.mem_cons_self _ _⟩
    · simp only [countServiceName, List.filter_cons, decide_eq_true_eq,
        ht, if_false] at h
      obtain ⟨w, hw⟩ := ih h
      exact ⟨w, List.mem_cons_of_mem _ hw⟩

/-- Two or more Service-Name tags make the scan fail, whatever their
values. -/
lemma scanTags_none_of_two_sn (ts : List Tag) (hu : Option (List ℕ))
    (h : 2 ≤ countServiceName ts) : scanTags ts none hu = none := by
  induction ts generalizing hu with
  | nil => simp [countServiceName] at h
  | cons hd rest ih =>
    obtain ⟨t, v⟩ := hd
    by_cases ht : t = 0x0101
    · subst ht
      simp [countServiceName, List.filter_cons] at h
      show (if isUtf8 v = true then scanTags rest (some v) hu else none) = none
      split
      · exact scanTags_none_of_sn_some rest v hu
          (exists_sn_of_count_pos rest (by simp only [countServiceName]; omega))
      · rfl
    · simp only [countServiceName, List.filter_cons, decide_eq_true_eq, ht,
        if_false] at h
      simp only [scanTags, if_neg ht]
      split <;> exact ih _ h

/-- A Service-Name tag with invalid UTF-8 bytes makes the scan fail. -/
lemma scanTags_none_of_bad_utf8 (ts : List Tag) (hu : Option (List ℕ))
    (h : ∃ v, (0x0101, v) ∈ ts ∧ isUtf8 v = false) : scanTags ts none hu = none := by
  induction ts generalizing hu with
  | nil => obtain ⟨v, hv, -⟩ := h; cases hv
  | cons hd rest ih =>
    obtain ⟨t, w⟩ := hd
    obtain ⟨v, hv, hbad⟩ := h
    by_cases ht : t = 0x0101
    · subst ht
      rcases List.mem_cons.mp hv with hv | hv
      · obtain ⟨-, rfl⟩ := Prod.ext_iff.mp hv
        show (if isUtf8 v = true then scanTags rest (some v) hu else none) = none
        rw [if_neg (by simp [hbad])]
      · show (if isUtf8 w = true then scanTags rest (some w) hu else none) = none
        split
        · exact scanTags_none_of_sn_some rest w hu ⟨v, hv⟩
        · rfl
    · rcases List.mem_cons.mp hv with hv | hv
      · cases hv; exact absurd rfl ht
      · simp only [scanTags, if_neg ht]
        split <;> exact ih _ ⟨v, hv, hbad⟩

/-- Without any Service-Name tag the scan succeeds but records no
Service-Name. -/
lemma scanTags_sn_none_of_no_sn (ts : List Tag) (sn hu : Option (List ℕ))
    (h : countServiceName ts = 0) :
    ∃ hu', scanTags ts sn hu = some (sn, hu') := by
  induction ts generalizing hu with
  | nil => exact ⟨hu, rfl⟩
  | cons hd rest ih =>
    obtain ⟨t, v⟩ := hd
    by_cases ht : t = 0x0101
    · subst ht
      simp [countServiceName, List.filter_cons] at h
    · simp only [countServiceName, List.filter_cons, decide_eq_true_eq, ht,
        if_false] at h
      simp only [scanTags, if_neg ht]
      split <;> exact ih _ h

/-- C7 (confirmed): PADO construction — a PADI (code 0x09, session id 0)
carrying exactly one Service-Name tag `"svc"` and no Host-Uniq yields a PADO
with code 0x07, session id 0 and tags exactly
`[(0x0102, AC-Name), (0x0101, "svc")]` in that order, with no 0x0103 tag;
when a Host-Uniq tag is also present, it is echoed as a trailing 0x0103 tag
after the Service-Name echo. -/
theorem c7_pado_construction :
    DiscoveryServer.parse_padi ⟨0x09, 0, [(0x0101, svcName)]⟩ =
      .reply ⟨0x07, 0, [(0x0102, acName), (0x0101, svcName)]⟩ ∧
    ∀ h : List ℕ,
      DiscoveryServer.parse_padi ⟨0x09, 0, [(0x0101, svcName), (0x0103, h)]⟩ =
        .reply ⟨0x07, 0, [(0x0102, acName), (0x0101, svcName), (0x0103, h)]⟩ := by
  constructor
  · decide
  · intro h
    rfl

/-- C8 (confirmed): Service-Name multiplicity and presence — for any frame
payload, both `parse_padi` and `parse_padr` reject (log and ignore, sending
no reply and touching no state) when the session id is non-zero, when two or
more Service-Name tags are present (whatever their values), when some
Service-Name tag's bytes are not valid UTF-8, or when no Service-Name tag is
present.  Rejection is the bare `reject` outcome: the per-frame handler
returns before building any reply or touching the session table, so the
receive loop in `DiscoveryServer::run` simply continues with the next
frame. -/
theorem c8_service_name_rejections (p : EthernetPayload) (st : Sessions) :
    (p.session_id ≠ 0 →
      DiscoveryServer.parse_padi p = .reject ∧
      DiscoveryServer.parse_padr p st = .reject) ∧
    (2 ≤ countServiceName p.payload →
      DiscoveryServer.parse_padi p = .reject ∧
      DiscoveryServer.parse_padr p st = .reject) ∧
    ((∃ v, (0x0101, v) ∈ p.payload ∧ isUtf8 v = false) →
      DiscoveryServer.parse_padi p = .reject ∧
      DiscoveryServer.parse_padr p st = .reject) ∧
    (countServiceName p.payload = 0 →
      DiscoveryServer.parse_padi p = .reject ∧
      DiscoveryServer.parse_padr p st = .reject) := by
  refine ⟨?_, ?_, ?_, ?_⟩
  · intro hs
    constructor
    · simp only [DiscoveryServer.parse_padi, if_pos hs]
    · simp only [DiscoveryServer.parse_padr, if_pos hs]
  · intro h2
    by_cases hs : p.session_id ≠ 0
    · constructor
      · simp only [DiscoveryServer.parse_padi, if_pos hs]
      · simp only [DiscoveryServer.parse_padr, if_pos hs]
    · have hscan := scanTags_none_of_two_sn p.payload none h2
      constructor
      · simp only [DiscoveryServer.parse_padi, if_neg hs, hscan]
      · simp only [DiscoveryServer.parse_padr, if_neg hs, hscan]
  · intro hbad
    by_cases hs : p.session_id ≠ 0
    · constructor
      · simp only [DiscoveryServer.parse_padi, if_pos hs]
      · simp only [DiscoveryServer.parse_padr, if_pos hs]
    · have hscan := scanTags_none_of_bad_utf8 p.payload none hbad
      constructor
      · simp only [DiscoveryServer.parse_padi, if_neg hs, hscan]
      · simp only [DiscoveryServer.parse_padr, if_neg hs, hscan]
  · intro h0
    by_cases hs : p.session_id ≠ 0
    · constructor
      · simp only [DiscoveryServer.parse_padi, if_pos hs]
      · simp only [DiscoveryServer.parse_padr, if_pos hs]
    · obtain ⟨hu', hscan⟩ := scanTags_sn_none_of_no_sn p.payload none none h0
      constructor
      · simp only [DiscoveryServer.parse_padi, if_neg hs, hscan]
      · simp only [DiscoveryServer.parse_padr, if_neg hs, hscan]

/-- Witness for C8: one concrete rejected PADI/PADR pair per rejection
reason — non-zero session id, duplicated Service-Name, non-UTF-8
Service-Name, and a payload with no Service-Name tag. -/
theorem c8_rejections_witness :
    (DiscoveryServer.parse_padi ⟨0x09, 1, [(0x0101, svcName)]⟩ = .reject ∧
      DiscoveryServer.parse_padr ⟨0x19, 1, [(0x0101, svcName)]⟩ Sessions.default = .reject) ∧
    (DiscoveryServer.parse_padi ⟨0x09, 0, [(0x0101, svcName), (0x0101, svcName)]⟩ = .reject ∧
      DiscoveryServer.parse_padr ⟨0x19, 0, [(0x0101, svcName), (0x0101, svcName)]⟩
        Sessions.default = .reject) ∧
    (DiscoveryServer.parse_padi ⟨0x09, 0, [(0x0101, [0xFF])]⟩ = .reject ∧
      DiscoveryServer.parse_padr ⟨0x19, 0, [(0x0101, [0xFF])]⟩ Sessions.default = .reject) ∧
    (DiscoveryServer.parse_padi ⟨0x09, 0, [(0x0104, svcName)]⟩ = .reject ∧
      DiscoveryServer.parse_padr ⟨0x19, 0, [(0x0104, svcName)]⟩ Sessions.default = .reject) :=
  ⟨⟨(c8_service_name_rejections ⟨0x09, 1, [(0x0101, svcName)]⟩ Sessions.default).1
        (by decide) |>.left,
      (c8_service_name_rejections ⟨0x19, 1, [(0x0101, svcName)]⟩ Sessions.default).1
        (by decide) |>.right⟩,
   ⟨(c8_service_name_rejections ⟨0x09, 0, [(0x0101, svcName), (0x0101, svcName)]⟩
        Sessions.default).2.1 (by decide) |>.left,
     (c8_service_name_rejections ⟨0x19, 0, [(0x0101, svcName), (0x0101, svcName)]⟩
        Sessions.default).2.1 (by decide) |>.right⟩,
   ⟨(c8_service_name_rejections ⟨0x09, 0, [(0x0101, [0xFF])]⟩ Sessions.default).2.2.1
      ⟨[0xFF], by decide, by decide⟩ |>.left,
     (c8_service_name_rejections ⟨0x19, 0, [(0x0101, [0xFF])]⟩ Sessions.default).2.2.1
      ⟨[0xFF], by decide, by decide⟩ |>.right⟩,
   ⟨(c8_service_name_rejections ⟨0x09, 0, [(0x0104, svcName)]⟩ Sessions.default).2.2.2
      (by decide) |>.left,
     (c8_service_name_rejections ⟨0x19, 0, [(0x0104, svcName)]⟩ Sessions.default).2.2.2
      (by decide) |>.right⟩⟩

/-- C9 counterexample: a PADI with one Service-Name and two Host-Uniq tags
(values `0xAA` then `0xBB`) is accepted, but the engine's reply echoes a
single Host-Uniq tag carrying only the *last* value — the first Host-Uniq
value appears nowhere in the reply, so duplicates are not "both retained":
the scan loop overwrites the recorded Host-Uniq on every occurrence
(last-one-wins). -/
theorem c9_host_uniq_last_wins_cex :
    DiscoveryServer.parse_padi
        ⟨0x09, 0, [(0x0101, svcName), (0x0103, [0xAA]), (0x0103, [0xBB])]⟩ =
      .reply ⟨0x07, 0, [(0x0102, acName), (0x0101, svcName), (0x0103, [0xBB])]⟩ ∧
    ((0x0103 : ℕ), [(0xAA : ℕ)]) ∉
      ([(0x0102, acName), (0x0101, svcName), (0x0103, [0xBB])] : List Tag) := by
  decide

/-- After the Service-Name is recorded, a scan over Service-Name-free tags
keeps the recorded name and ends with the last Host-Uniq value (or the
accumulator if none occurs). -/
lemma scanTags_after_sn (ts : List Tag) (s0 : List ℕ) :
    ∀ hu0 : Option (List ℕ), ts.filter (fun tv => decide (tv.1 = 0x0101)) = [] →
      scanTags ts (some s0) hu0 =
        some (some s0, match lastHostUniq ts with | some h => some h | none => hu0) := by
  induction ts with
  | nil => intro hu0 _; rfl
  | cons hd rest ih =>
    intro hu0 hf
    obtain ⟨t, v⟩ := hd
    simp only [List.filter_cons, decide_eq_true_eq] at hf
    by_cases ht : t = 0x0101
    · rw [if_pos (by simp [ht])] at hf
      cases hf
    · rw [if_neg (by simp [ht])] at hf
      by_cases ht3 : t = 0x0103
      · subst ht3
        show scanTags rest (some s0) (some v) = _
        rw [ih (some v) hf]
        simp only [lastHostUniq]
        cases hl : lastHostUniq rest <;> simp
      · simp only [scanTags, if_neg ht, if_neg ht3]
        rw [ih hu0 hf]
        simp only [lastHostUniq]
        cases hl : lastHostUniq rest <;> simp [ht3]

/-- On a payload whose only Service-Name tag is `(0x0101, sn)` with `sn`
valid UTF-8, the scan succeeds, records `sn`, and records the value of the
last Host-Uniq tag (or the accumulator if none occurs), wherever those tags
sit and whatever other tags surround them. -/
lemma scanTags_of_single_sn (ts : List Tag) (sn : List ℕ) :
    ∀ hu0 : Option (List ℕ),
      ts.filter (fun tv => decide (tv.1 = 0x0101)) = [(0x0101, sn)] →
      isUtf8 sn = true →
      scanTags ts none hu0 =
        some (some sn, match lastHostUniq ts with | some h => some h | none => hu0) := by
  induction ts with
  | nil => intro hu0 hf; cases hf
  | cons hd rest ih =>
    intro hu0 hf hutf
    obtain ⟨t, v⟩ := hd
    simp only [List.filter_cons, decide_eq_true_eq] at hf
    by_cases ht : t = 0x0101
    · subst ht
      rw [if_pos (by simp)] at hf
      obtain ⟨⟨-, rfl⟩, hrest⟩ : ((0x0101 : ℕ) = 0x0101 ∧ v = sn) ∧
          rest.filter (fun tv => decide (tv.1 = 0x0101)) = [] := by
        have h1 := List.head_eq_of_cons_eq hf
        have h2 := List.tail_eq_of_cons_eq hf
        exact ⟨Prod.ext_iff.mp h1, h2⟩
      show (if isUtf8 v = true then scanTags rest (some v) hu0 else none) = _
      rw [if_pos hutf, scanTags_after_sn rest v hu0 hrest]
      simp only [lastHostUniq]
      cases hl : lastHostUniq rest <;> simp
    · rw [if_neg (by simp [ht])] at hf
      by_cases ht3 : t = 0x0103
      · subst ht3
        show scanTags rest none (some v) = _
        rw [ih (some v) hf hutf]
        simp only [lastHostUniq]
        cases hl : lastHostUniq rest <;> simp
      · simp only [scanTags, if_neg ht, if_neg ht3]
        rw [ih hu0 hf hutf]
        simp only [lastHostUniq]
        cases hl : lastHostUniq rest <;> simp [ht3]

/-- C9 (corrected): every PADI (session id 0) whose payload contains exactly
one Service-Name tag — valid UTF-8, at any position, any other tags around
it — and two or more Host-Uniq tags is accepted (only Service-Name has a
multiplicity check), and the reply carries exactly one trailing 0x0103 tag
holding the value `h` of the *last* Host-Uniq tag — last-one-wins applies,
duplicates are not both retained. -/
theorem c9_host_uniq_last_wins (ts : List Tag) (sn h : List ℕ)
    (hsn : ts.filter (fun tv => decide (tv.1 = 0x0101)) = [(0x0101, sn)])
    (hutf : isUtf8 sn = true)
    (_hhu : 2 ≤ (ts.filter fun tv => decide (tv.1 = 0x0103)).length)
    (hlast : lastHostUniq ts = some h) :
    DiscoveryServer.parse_padi ⟨0x09, 0, ts⟩ =
      .reply ⟨0x07, 0, [(0x0102, acName), (0x0101, sn), (0x0103, h)]⟩ := by
  have hscan : scanTags ts none none = some (some sn, some h) := by
    rw [scanTags_of_single_sn ts sn none hsn hutf, hlast]
  simp only [DiscoveryServer.parse_padi, if_neg (by decide : ¬(0 : ℕ) ≠ 0), hscan,
    List.cons_append, List.nil_append]

/-- Witness for C9 at a frame with three Host-Uniq tags, the Service-Name in
the middle, and an unrelated tag: the reply echoes only the last Host-Uniq
value `[3]`. -/
theorem c9_last_wins_witness :
    DiscoveryServer.parse_padi
        ⟨0x09, 0, [(0x0103, [1]), (0x0500, [9]), (0x0101, svcName),
          (0x0103, [2]), (0x0103, [3])]⟩ =
      .reply ⟨0x07, 0, [(0x0102, acName), (0x0101, svcName), (0x0103, [3])]⟩ :=
  c9_host_uniq_last_wins
    [(0x0103, [1]), (0x0500, [9]), (0x0101, svcName), (0x0103, [2]), (0x0103, [3])]
    svcName [3] (by decide) (by decide) (by decide) (by decide)

/-- `idsFrom n` has length `n`. -/
lemma idsFrom_length : ∀ n, (idsFrom n).length = n
  | 0 => rfl
  | n + 1 => by simp only [idsFrom, List.length_cons, idsFrom_length n]

/-- The exhausted table really has 65535 active ids. -/
lemma exhaustedSessions_list_length : exhaustedSessions.list.length = 65535 :=
  idsFrom_length 65535

/-- A well-formed PADR against a table with an empty free pool and 65535 (or
more) active ids reaches the `todo!()` arm of `parse_padr` — the explicitly
unimplemented path, which panics in Rust. -/
lemma parse_padr_exhausted_todo (p : EthernetPayload) (st : Sessions)
    (sn : List ℕ) (hu : Option (List ℕ))
    (hsid : p.session_id = 0)
    (hscan : scanTags p.payload none none = some (some sn, hu))
    (hfree : st.free = [])
    (hfull : 65535 ≤ st.list.length) :
    DiscoveryServer.parse_padr p st = .todo := by
  have hspawn : st.spawn = .exhausted := by
    unfold Sessions.spawn
    rw [hfree]
    simp only
    rw [if_neg (by omega)]
  simp only [DiscoveryServer.parse_padr, if_neg (by omega : ¬p.session_id ≠ 0),
    hscan, hspawn]

/-- C3 counterexample: a well-formed PADR (code 0x19, session id 0, one
valid Service-Name tag) arriving while all 65535 session ids are active is
*not* dropped: `Sessions::spawn` returns `None` and the engine lands on the
`todo!()` arm, which panics — the outcome is `todo`, not the
drop-and-continue outcome `reject`. -/
theorem c3_exhaustion_panics_not_drops :
    DiscoveryServer.parse_padr ⟨0x19, 0, [(0x0101, svcName)]⟩ exhaustedSessions =
      .todo ∧ PadrOut.todo ≠ PadrOut.reject :=
  ⟨parse_padr_exhausted_todo ⟨0x19, 0, [(0x0101, svcName)]⟩ exhaustedSessions
      svcName none rfl (by decide) rfl exhaustedSessions_list_length.ge,
    by decide⟩

/-- C3 (corrected): whenever a well-formed PADR (session id 0, exactly one
valid Service-Name recorded by the tag scan) arrives and the session table
cannot allocate (empty free pool and at least 65535 active ids), the engine
reaches the explicitly unimplemented `todo!()` branch and panics; it sends
no reply and does not drop-and-continue. -/
theorem c3_exhausted_padr_todo (p : EthernetPayload) (st : Sessions)
    (sn : List ℕ) (hu : Option (List ℕ))
    (hsid : p.session_id = 0)
    (hscan : scanTags p.payload none none = some (some sn, hu))
    (hfree : st.free = [])
    (hfull : 65535 ≤ st.list.length) :
    DiscoveryServer.parse_padr p st = .todo :=
  parse_padr_exhausted_todo p st sn hu hsid hscan hfree hfull

/-- Witness for C3 at a concrete PADR and a concrete table of 65535 active
entries. -/
theorem c3_exhausted_padr_todo_witness :
    DiscoveryServer.parse_padr ⟨0x19, 0, [(0x0101, svcName)]⟩
      ⟨List.replicate 65535 1, []⟩ = .todo :=
  c3_exhausted_padr_todo ⟨0x19, 0, [(0x0101, svcName)]⟩ ⟨List.replicate 65535 1, []⟩
    svcName none rfl (by decide) rfl (by simp only [List.length_replicate]; omega)
